import Mathlib

/-!
Verification of the DDC/CI monitor-control library (`ddc-macos`): a shallow
embedding of the protocol framer, the identity matcher, the dual-transport
execution logic and the monitor facade, together with proofs of the
testable properties stated in the design specification.

Conventions of the embedding:
* machine bytes (`u8`) and words (`u16`, `u32`) are `Nat`, with an explicit
  `% 256` wherever the source truncates (`as u8`);
* the opaque IOKit handles and CoreFoundation dictionaries are replaced by
  plain data (`structure`s and `Option` fields): a property lookup that can
  fail in the source is an `Option` here;
* fallible Rust functions returning `Result` become `Except`.
-/

namespace DdcMacos

/-! ## Constants

Protocol and kernel constants, as re-exported by the `ddc` crate and
`iokit_io2c_interface.rs` / `mach`. -/

/-- DDC/CI sub-address constant (the `ddc` crate's `SUB_ADDRESS_DDC_CI`). -/
def SUB_ADDRESS_DDC_CI : Nat := 0x51

/-- Standard DDC/CI I2C chip address (the `ddc` crate's `I2C_ADDRESS_DDC_CI`). -/
def I2C_ADDRESS_DDC_CI : Nat := 0x37

/-- Alternate chip address for the MCDP29xx bridge chip (src/arm.rs line 92). -/
def I2C_ADDRESS_DDC_CI_MDCP29XX : Nat := 0xB7

/-- Generic kernel failure code (`mach::kern_return::KERN_FAILURE`). -/
def KERN_FAILURE : Int := 5

/-- No-reply transaction type (src/iokit_io2c_interface.rs). -/
def kIOI2CNoTransactionType : Nat := 0

/-- Simple transaction type (src/iokit_io2c_interface.rs). -/
def kIOI2CSimpleTransactionType : Nat := 1

/-- Checksummed-reply transaction type (src/iokit_io2c_interface.rs). -/
def kIOI2CDDCciReplyTransactionType : Nat := 2

/-! ## Error taxonomy

From src/src/monitor.rs lines 22-34 (and its superset in src/src/error.rs):
CoreGraphics enumeration errors, kernel I/O errors carrying a status code,
and DDC/CI framing errors.  Only the two framing error codes the decoder
raises are modelled out of the `ddc` crate's `ErrorCode`. -/

/-- Framing error codes raised by the reply decoder (the `ddc` crate's
`ErrorCode` variants used in src/src/monitor.rs lines 291 and 300). -/
inductive ErrorCode where
  | InvalidLength
  | InvalidChecksum
deriving DecidableEq

/-- The unified error type of src/src/error.rs (superset of the one declared
in src/src/monitor.rs lines 22-34). -/
inductive Error where
  | CoreGraphics (code : Int)
  | Io (code : Int)
  | Ddc (code : ErrorCode)
  | ServiceNotFound
  | DisplayLocationNotFound
deriving DecidableEq

deriving instance DecidableEq for Except

/-! ## Protocol framer -/

/-- XOR checksum over a byte sequence.  Modelled from the spec: `checksum`
lives in the external `ddc` crate (src only calls it); per section 4.2 it is
"the XOR (cumulative exclusive-or) of every byte in `seq`". -/
def checksum (seq : List Nat) : Nat :=
  seq.foldl (fun a b => a ^^^ b) 0

/-- Modelled from the spec: `encode_command` lives in the external `ddc`
crate (src/src/monitor.rs line 260 only calls it).  Per section 4.2:
`packet[0] = SUB_ADDRESS_DDC_CI`, `packet[1] = 0x80 | L`,
`packet[2..2+L] = P`, `packet[2+L] = checksum(seq)` where `seq` is the
single byte `chip_address << 1` (truncated to a byte) followed by
`packet[0..2+L]`. -/
def encode_command (chip_address : Nat) (data : List Nat) : List Nat :=
  let head := SUB_ADDRESS_DDC_CI :: (0x80 ||| data.length) :: data
  head ++ [checksum (((chip_address <<< 1) % 256) :: head)]

/-- Framer-level reply decoding, from `Monitor::execute`
(src/src/monitor.rs lines 289-303): `reply_length = R[1] & 0x7f`; fail with
`InvalidLength` when `reply_length + 2 >= R.len()`; recompute the checksum
over `replyAddress as u8` (that is `((chip_address << 1) | 1)` truncated to
a byte), `SUB_ADDRESS_DDC_CI`, and `R[1..2+reply_length]`, failing with
`InvalidChecksum` when it differs from `R[2+reply_length]`; otherwise the
validated payload is `R[2..2+reply_length]` (the source then hands that
slice to `CommandResult::decode`, which is the command layer, outside the
framer).  Out-of-range indexing is rendered with default byte `0`; in the
source the buffer is a fixed 36-byte array so every read is in bounds. -/
def decode (chip_address : Nat) (R : List Nat) : Except Error (List Nat) :=
  let reply_length := R.getD 1 0 &&& 0x7f
  if reply_length + 2 ≥ R.length then
    .error (.Ddc .InvalidLength)
  else
    let cks := checksum ((((chip_address <<< 1) ||| 1) % 256) ::
      SUB_ADDRESS_DDC_CI :: (R.drop 1).take (1 + reply_length))
    if R.getD (2 + reply_length) 0 ≠ cks then
      .error (.Ddc .InvalidChecksum)
    else
      .ok ((R.drop 2).take reply_length)

/-- The synthetic transport of the round-trip property (spec section 8): it
echoes the encoded packet back, flipping the reply-address bit convention —
the reply checksum convention differs from the send convention in exactly
the low bit of the synthesized address byte, so the echoed packet's
checksum byte (its last byte) is flipped in its low bit. -/
def echo_reply (packet : List Nat) : List Nat :=
  packet.dropLast ++ [packet.getD (packet.length - 1) 0 ^^^ 1]

/-! ## Display identity and Transport A matching

From src/src/monitor.rs lines 146-189.  A `CGDisplay` is rendered by the
identity fields the matcher reads from it; an `IOFramebuffer` candidate
port by its I2C bus count and its (possibly unavailable) display-info
property dictionary, of which the matcher reads the `DisplayVendorID`,
`DisplayProductID` and `DisplaySerialNumber` entries, each of which may be
absent (or fail its numeric downcast, which the embedding identifies with
absence). -/

/-- Identity fields of a `CGDisplay` as used by matching and accessors. -/
structure Display where
  vendorNumber : Nat
  modelNumber : Nat
  serialNumber : Nat
  isBuiltin : Bool
deriving DecidableEq

/-- The values `framebuffer_port_matches_display` extracts from a port's
display-info dictionary (src/src/monitor.rs lines 157-170); `none` is a key
that is absent or fails its `CFNumber` downcast. -/
structure DisplayInfo where
  vendor : Option Nat
  product : Option Nat
  serial : Option Nat
deriving DecidableEq

/-- A candidate `IOFramebuffer` port: its reported I2C bus count and its
display-info dictionary (`none` when `IODisplayCreateInfoDictionary`
fails). -/
structure FramebufferPort where
  busCount : Nat
  info : Option DisplayInfo
deriving DecidableEq

/-- From src/src/monitor.rs lines 146-180: skip the port when it reports
zero I2C buses; read its display-info dictionary; extract vendor and
product (required) and serial (defaulting to 0 when absent); match when all
three equal the display's fields. -/
def framebuffer_port_matches_display (port : FramebufferPort) (display : Display) :
    Option Unit := do
  if port.busCount = 0 then
    none
  else
    let info ← port.info
    let display_vendor ← info.vendor
    let display_product ← info.product
    let display_serial := info.serial.getD 0
    if display_vendor = display.vendorNumber ∧ display_product = display.modelNumber ∧
        display_serial = display.serialNumber then
      some ()
    else
      none

/-- From src/src/monitor.rs lines 183-189: `None` for builtin displays,
otherwise the first candidate port (in host iteration order over the
`IOFramebuffer` services, given here as a list) that matches the display.
A failure to create the service iterator is rendered as the empty candidate
list (both observably yield `None`). -/
def get_io_framebuffer_port (display : Display) (candidates : List FramebufferPort) :
    Option FramebufferPort :=
  if display.isBuiltin then
    none
  else
    candidates.find? fun framebuffer =>
      (framebuffer_port_matches_display framebuffer display).isSome

/-- The matching predicate exactly as the specification words it (section
4.1 / section 8): the port's I2C bus count is nonzero and its
`DisplayVendorID`, `DisplayProductID` and `DisplaySerialNumber` (the last
treated as 0 when absent from the property dictionary) all equal the
display's vendor, model and serial numbers.  Stated independently of the
source function so the two can be compared. -/
def spec_port_matches (display : Display) (port : FramebufferPort) : Bool :=
  decide (port.busCount ≠ 0) &&
  decide (port.info.bind DisplayInfo.vendor = some display.vendorNumber) &&
  decide (port.info.bind DisplayInfo.product = some display.modelNumber) &&
  decide ((port.info.bind DisplayInfo.serial).getD 0 = display.serialNumber)

/-! ## Transport A request sending

From `Monitor::send_request`, src/src/monitor.rs lines 218-236.  The
environment is rendered by the status of the bus-count query and, for each
bus index, what happens when the loop reaches it: the
`IOFBCopyI2CInterfaceForBus` acquisition fails, or the acquired
connection's transaction fails with some error, or it succeeds. -/

/-- Outcome of one bus iteration of the send loop. -/
inductive BusOutcome where
  | acquireFail
  | txnError (e : Error)
  | txnOk
deriving DecidableEq

/-- The bus loop of src/src/monitor.rs lines 222-233, also returning the
list of bus indices for which an interface acquisition was attempted:
an acquisition failure keeps the running result and moves on; a successful
acquisition overwrites the running result with the transaction outcome and
the loop breaks on success. -/
def send_request_loop (buses : Nat → BusOutcome) :
    List Nat → Except Error Unit → Except Error Unit × List Nat
  | [], result => (result, [])
  | bus :: rest, result =>
    match buses bus with
    | .acquireFail =>
      let r := send_request_loop buses rest result
      (r.1, bus :: r.2)
    | .txnError e =>
      let r := send_request_loop buses rest (.error e)
      (r.1, bus :: r.2)
    | .txnOk => (.ok (), [bus])

/-- From src/src/monitor.rs lines 218-236: `result` starts as the generic
`Io(KERN_FAILURE)`; the bus-count query status is checked through
`verify_io` (a non-zero kernel status aborts with `Io` of that status);
then the loop runs over bus indices `0..bus_count`.  The trailing
`thread::sleep` has no observable effect in the embedding. -/
def send_request (countStatus : Int) (busCount : Nat) (buses : Nat → BusOutcome) :
    Except Error Unit × List Nat :=
  if countStatus ≠ 0 then
    (.error (.Io countStatus), [])
  else
    send_request_loop buses (List.range busCount) (.error (.Io KERN_FAILURE))

/-- The "last error encountered" of spec section 4.3: the outcome of the
last bus whose acquired connection ran a (failing) transaction, the generic
`Io(KERN_FAILURE)` when no bus got that far. -/
def last_bus_error (buses : Nat → BusOutcome) (n : Nat) : Except Error Unit :=
  (List.range n).foldl
    (fun acc bus =>
      match buses bus with
      | .txnError e => .error e
      | _ => acc)
    (.error (.Io KERN_FAILURE))

/-! ## Monitor construction and enumeration -/

/-- The backend attached to a constructed monitor.  The source's `Monitor`
struct (src/src/monitor.rs lines 63-67) holds a `CGDisplay` plus an
`IOFramebuffer` port, rendered here as the `Integrated` variant; the
`Unified` variant renders the spec's Transport B service (an AV service
handle plus the chip address fixed at match time), so that the source's
enumeration and the spec's can be compared at one type. -/
inductive MonitorService where
  | Integrated (port : FramebufferPort)
  | Unified (service : Nat) (chipAddress : Nat)
deriving DecidableEq

/-- From `Monitor::enumerate`, src/src/monitor.rs lines 82-93: take the
active display list (failing with the `CoreGraphics` error when the host
query fails), and keep, for each display, the framebuffer port Transport A
matching finds, silently dropping displays for which it finds none. -/
def enumerate (activeDisplays : Except Int (List Display))
    (candidates : List FramebufferPort) :
    Except Error (List (Display × MonitorService)) :=
  match activeDisplays with
  | .error e => .error (.CoreGraphics e)
  | .ok displays =>
    .ok (displays.filterMap fun display =>
      (get_io_framebuffer_port display candidates).map
        fun frame_buffer => (display, .Integrated frame_buffer))

/-- Modelled from the spec: the enumeration of section 4.5, which for each
active display "attempt[s] Transport A matching, then Transport B
matching", constructing a monitor on first success and silently omitting
displays matching neither backend.  Transport B matching (src/arm.rs's
registry walk) is abstracted as a function from a display to the matched
AV service and chip address, `none` on matching failure. -/
def enumerate_spec (activeDisplays : Except Int (List Display))
    (candidates : List FramebufferPort)
    (armMatch : Display → Option (Nat × Nat)) :
    Except Error (List (Display × MonitorService)) :=
  match activeDisplays with
  | .error e => .error (.CoreGraphics e)
  | .ok displays =>
    .ok (displays.filterMap fun display =>
      match get_io_framebuffer_port display candidates with
      | some frame_buffer => some (display, .Integrated frame_buffer)
      | none => (armMatch display).map fun sa => (display, .Unified sa.1 sa.2))

/-! ## Transport B chip-address derivation

From `i2c_address`, src/src/arm.rs lines 92-123.  The registry inspection
is rendered by what it can observe: `none` when
`IORegistryEntryGetParentEntry` fails, `some none` when the parent exists
but its `EPICProviderClass` property is null, and `some (some c)` when the
property is the string `c`. -/

/-- From src/src/arm.rs lines 95-123: the alternate address
`I2C_ADDRESS_DDC_CI_MDCP29XX` (0xB7) exactly when the parent lookup
succeeds and its `EPICProviderClass` property equals `AppleDCPMCDP29XX`;
the standard `I2C_ADDRESS_DDC_CI` (0x37) in every other case. -/
def i2c_address (parentClass : Option (Option String)) : Nat :=
  match parentClass with
  | none => I2C_ADDRESS_DDC_CI
  | some none => I2C_ADDRESS_DDC_CI
  | some (some c) =>
    if c = "AppleDCPMCDP29XX" then I2C_ADDRESS_DDC_CI_MDCP29XX else I2C_ADDRESS_DDC_CI

/-! ## Integrated-backend execute (src/intel.rs)

From `execute`, src/src/intel.rs lines 21-57.  The observable inputs are:
whether the out buffer is empty, the negotiated transaction type
(`get_supported_transaction_type()`, rendered as an `Option Nat` supplied
by the environment), the outcome of `send_request`, and the bytes the
native transaction left in the out buffer on success. -/

/-- From src/src/intel.rs lines 21-57: `replyTransactionType` is
`kIOI2CNoTransactionType` for an empty out buffer and otherwise the
negotiated type (defaulting to `kIOI2CNoTransactionType`); a `send_request`
failure propagates; on success the source returns an empty slice when
`replyTransactionType != kIOI2CNoTransactionType` and the out buffer
otherwise (sic — this is the condition exactly as the source writes it). -/
def intel_execute (sendResult : Except Error Unit) (supported : Option Nat)
    (out : List Nat) : Except Error (List Nat) :=
  let replyTransactionType :=
    if out.isEmpty then kIOI2CNoTransactionType
    else supported.getD kIOI2CNoTransactionType
  match sendResult with
  | .error e => .error e
  | .ok _ =>
    if replyTransactionType ≠ kIOI2CNoTransactionType then .ok [] else .ok out

/-! ## Monitor accessors -/

/-- From `Monitor::serial_number`, src/src/monitor.rs lines 106-112: `None`
when the display's numeric serial number is 0, otherwise the number
formatted in decimal. -/
def serial_number (display : Display) : Option String :=
  match display.serialNumber with
  | 0 => none
  | serial => some (toString serial)

/-! ## Helper lemmas: XOR and checksum algebra -/

theorem foldl_xor_eq (l : List Nat) (a : Nat) :
    l.foldl (fun x b => x ^^^ b) a = a ^^^ l.foldl (fun x b => x ^^^ b) 0 := by
  induction l generalizing a with
  | nil => simp
  | cons x l ih =>
    simp only [List.foldl_cons]
    rw [ih (a ^^^ x), ih (0 ^^^ x), Nat.zero_xor, Nat.xor_assoc]

theorem checksum_cons (x : Nat) (l : List Nat) :
    checksum (x :: l) = x ^^^ checksum l := by
  simp only [checksum, List.foldl_cons, Nat.zero_xor]
  exact foldl_xor_eq l x

theorem checksum_append (l₁ l₂ : List Nat) :
    checksum (l₁ ++ l₂) = checksum l₁ ^^^ checksum l₂ := by
  simp only [checksum, List.foldl_append]
  exact foldl_xor_eq l₂ _

theorem xor_left_cancel (a u v : Nat) (h : a ^^^ u = a ^^^ v) : u = v := by
  have h2 := congrArg (fun t => a ^^^ t) h
  simpa [← Nat.xor_assoc, Nat.xor_self, Nat.zero_xor] using h2

theorem length_byte_field (L : Nat) (h : L < 128) : (128 ||| L) &&& 127 = L := by
  apply Nat.eq_of_testBit_eq
  intro i
  have h128 : (128 : Nat) = 2 ^ 7 := by norm_num
  have h127 : (127 : Nat) = 2 ^ 7 - 1 := by norm_num
  rw [Nat.testBit_land, Nat.testBit_lor, h128, h127, Nat.testBit_two_pow,
    Nat.testBit_two_pow_sub_one]
  by_cases hi : i < 7
  · have h7 : ¬(7 = i) := by omega
    simp [hi, h7]
  · have hL : L.testBit i = false := Nat.testBit_eq_false_of_lt (by
      calc L < 128 := h
      _ = 2 ^ 7 := by norm_num
      _ ≤ 2 ^ i := Nat.pow_le_pow_right (by norm_num) (by omega))
    simp [hi, hL]

theorem even_or_one_mod (n : Nat) (h : n % 2 = 0) :
    (n ||| 1) % 256 = (n % 256) ^^^ 1 := by
  apply Nat.eq_of_testBit_eq
  intro i
  have h256 : (256 : Nat) = 2 ^ 8 := by norm_num
  have h1 : (1 : Nat) = 2 ^ 0 := by norm_num
  rw [h256, Nat.testBit_mod_two_pow, Nat.testBit_xor, Nat.testBit_mod_two_pow,
    Nat.testBit_lor, h1, Nat.testBit_two_pow]
  have heven : n.testBit 0 = false := by
    rw [Nat.testBit_zero]
    simp [h]
  by_cases hi : i = 0
  · subst hi
    simp [heven]
  · by_cases hlt : i < 8 <;> simp [hi, hlt, Ne.symm hi]

theorem shiftLeft_one_mod_two (c : Nat) : (c <<< 1) % 2 = 0 := by
  rw [Nat.shiftLeft_eq]
  omega

/-! ## Helper lemmas: list surgery -/

theorem getD_eq_getElem {α : Type} (l : List α) (j : Nat) (d : α) (h : j < l.length) :
    l.getD j d = l[j] := by
  rw [List.getD_eq_getElem?_getD, List.getElem?_eq_getElem h]
  rfl

theorem take_set_of_lt {α : Type} (l : List α) (j m : Nat) (a : α) (h : j < m) :
    (l.set j a).take m = (l.take m).set j a := by
  apply List.ext_getElem?
  intro n
  rw [List.getElem?_take, List.getElem?_set, List.getElem?_set, List.getElem?_take]
  have hlen : (l.take m).length = min m l.length := List.length_take m l
  split_ifs <;> first
    | rfl
    | omega

theorem checksum_set (l : List Nat) (j b : Nat) (hj : j < l.length) :
    checksum (l.set j b) = checksum l ^^^ l.getD j 0 ^^^ b := by
  have hsplit : checksum l =
      checksum (l.take j) ^^^ (l[j] ^^^ checksum (l.drop (j + 1))) := by
    conv_lhs => rw [← List.take_append_drop j l, List.drop_eq_getElem_cons hj]
    rw [checksum_append, checksum_cons]
  rw [List.set_eq_take_cons_drop b hj, checksum_append, checksum_cons,
    getD_eq_getElem l j 0 hj, hsplit]
  rw [Nat.xor_assoc (checksum (l.take j) ^^^ (l[j] ^^^ checksum (l.drop (j + 1)))) l[j] b]
  rw [Nat.xor_assoc (checksum (l.take j)) (l[j] ^^^ checksum (l.drop (j + 1))) (l[j] ^^^ b)]
  congr 1
  rw [Nat.xor_comm l[j] (checksum (l.drop (j + 1))), Nat.xor_assoc,
    ← Nat.xor_assoc l[j] l[j] b, Nat.xor_self, Nat.zero_xor,
    Nat.xor_comm (checksum (l.drop (j + 1))) b]

/-! ## Helper lemmas: matcher and bus loop -/

theorem matches_eq_spec (port : FramebufferPort) (display : Display) :
    (framebuffer_port_matches_display port display).isSome =
      spec_port_matches display port := by
  unfold framebuffer_port_matches_display spec_port_matches
  by_cases hb : port.busCount = 0
  · simp [hb]
  rcases hinfo : port.info with _ | info
  · simp [hb, hinfo]
  rcases hv : info.vendor with _ | v
  · simp [hb, hinfo, hv]
  rcases hp : info.product with _ | pr
  · simp [hb, hinfo, hv, hp]
  by_cases hm : v = display.vendorNumber ∧ pr = display.modelNumber ∧
      info.serial.getD 0 = display.serialNumber
  · simp [hb, hinfo, hv, hp, hm, hm.1, hm.2.1, hm.2.2]
  · simp [hb, hinfo, hv, hp, hm]
    intro h1 h2 h3
    exact hm ⟨h1, h2, h3⟩

theorem send_request_loop_first_success (buses : Nat → BusOutcome)
    (l1 : List Nat) (k : Nat) (l2 : List Nat) (acc : Except Error Unit)
    (h1 : ∀ j ∈ l1, buses j ≠ .txnOk) (hk : buses k = .txnOk) :
    send_request_loop buses (l1 ++ k :: l2) acc = (.ok (), l1 ++ [k]) := by
  induction l1 generalizing acc with
  | nil =>
    simp only [List.nil_append, send_request_loop, hk]
  | cons j l1 ih =>
    have hj : buses j ≠ .txnOk := h1 j (List.mem_cons_self j l1)
    have hrest : ∀ x ∈ l1, buses x ≠ .txnOk := fun x hx => h1 x (List.mem_cons_of_mem j hx)
    cases hcase : buses j with
    | acquireFail =>
      simp only [List.cons_append, send_request_loop, hcase, List.append_eq, ih acc hrest]
    | txnError e =>
      simp only [List.cons_append, send_request_loop, hcase, List.append_eq,
        ih (.error e) hrest]
    | txnOk => exact absurd hcase hj

theorem send_request_loop_all_fail (buses : Nat → BusOutcome)
    (l : List Nat) (acc : Except Error Unit)
    (h : ∀ j ∈ l, buses j ≠ .txnOk) :
    send_request_loop buses l acc =
      (l.foldl (fun a bus =>
        match buses bus with
        | .txnError e => .error e
        | _ => a) acc, l) := by
  induction l generalizing acc with
  | nil => simp [send_request_loop]
  | cons j l ih =>
    have hj : buses j ≠ .txnOk := h j (List.mem_cons_self j l)
    have hrest : ∀ x ∈ l, buses x ≠ .txnOk := fun x hx => h x (List.mem_cons_of_mem j hx)
    cases hcase : buses j with
    | acquireFail =>
      simp only [send_request_loop, hcase, List.append_eq, ih acc hrest, List.foldl_cons]
    | txnError e =>
      simp only [send_request_loop, hcase, List.append_eq, ih (.error e) hrest,
        List.foldl_cons]
    | txnOk => exact absurd hcase hj

theorem send_request_zero_status (busCount : Nat) (buses : Nat → BusOutcome) :
    send_request 0 busCount buses =
      send_request_loop buses (List.range busCount) (.error (.Io KERN_FAILURE)) := by
  simp [send_request]

/-- The bus environment of the specification's Transport A scenario: buses
0 and 1 fail to acquire, bus 2 acquires and its transaction succeeds. -/
def scenario_buses : Nat → BusOutcome := fun bus =>
  if bus < 2 then .acquireFail else .txnOk

/-! ## The claims -/

/-- C1.  Framer round-trip: for every payload `P` with `0 ≤ len(P) ≤ 36`
and any chip address `C`, decoding the packet a synthetic transport echoes
back (with the reply-address bit convention flipped) yields `P` again:
`decode(echo(encode(P, C)), C) = ok P`. -/
theorem framer_round_trip (chip_address : Nat) (P : List Nat) (h : P.length ≤ 36) :
    decode chip_address (echo_reply (encode_command chip_address P)) = .ok P := by
  set L := P.length with hL
  set addrE : Nat := (chip_address <<< 1) % 256 with haddrE
  set lenByte : Nat := 128 ||| L with hlenByte
  set head : List Nat := SUB_ADDRESS_DDC_CI :: lenByte :: P with hhead
  set cks : Nat := checksum (addrE :: head) with hcks
  have henc : encode_command chip_address P = head ++ [cks] := by
    simp only [encode_command]
  have hheadlen : head.length = L + 2 := by simp [hhead]
  have hecho : echo_reply (encode_command chip_address P) = head ++ [cks ^^^ 1] := by
    rw [henc]
    simp only [echo_reply, List.dropLast_concat]
    congr 2
    rw [List.length_append, hheadlen]
    simp only [List.length_singleton]
    rw [List.getD_eq_getElem?_getD, List.getElem?_append_right (by omega)]
    simp [hheadlen]
  rw [hecho]
  have hR : head ++ [cks ^^^ 1] =
      SUB_ADDRESS_DDC_CI :: lenByte :: (P ++ [cks ^^^ 1]) := by
    simp [hhead]
  rw [hR]
  simp only [decode]
  have hgetD1 : (SUB_ADDRESS_DDC_CI :: lenByte :: (P ++ [cks ^^^ 1])).getD 1 0 = lenByte := by
    simp [List.getD]
  rw [hgetD1]
  have hfield : lenByte &&& 0x7f = L := length_byte_field L (by omega)
  rw [hfield]
  rw [if_neg (by
    simp only [List.length_cons, List.length_append, List.length_singleton]
    omega)]
  have htake : ((SUB_ADDRESS_DDC_CI :: lenByte :: (P ++ [cks ^^^ 1])).drop 1).take (1 + L) =
      lenByte :: P := by
    show (lenByte :: (P ++ [cks ^^^ 1])).take (1 + L) = lenByte :: P
    rw [Nat.add_comm, List.take_succ_cons, List.take_left' hL.symm]
  rw [htake]
  have hstored : (SUB_ADDRESS_DDC_CI :: lenByte :: (P ++ [cks ^^^ 1])).getD (2 + L) 0 =
      cks ^^^ 1 := by
    rw [Nat.add_comm 2 L]
    show (P ++ [cks ^^^ 1]).getD L 0 = cks ^^^ 1
    rw [List.getD_eq_getElem?_getD, List.getElem?_append_right (by omega)]
    simp [hL]
  rw [hstored]
  have haddr : ((chip_address <<< 1) ||| 1) % 256 = addrE ^^^ 1 := by
    rw [haddrE]
    exact even_or_one_mod _ (shiftLeft_one_mod_two chip_address)
  rw [haddr]
  have hckseq : checksum ((addrE ^^^ 1) :: SUB_ADDRESS_DDC_CI :: lenByte :: P) =
      cks ^^^ 1 := by
    rw [hcks, hhead, checksum_cons (addrE ^^^ 1), checksum_cons addrE,
      Nat.xor_assoc, Nat.xor_assoc, Nat.xor_comm 1]
  rw [hckseq]
  rw [if_neg (by simp)]
  show Except.ok ((P ++ [cks ^^^ 1]).take L) = Except.ok P
  rw [List.take_left' hL.symm]

/-- Witness for C1: the round trip at chip address 0x37 and the concrete
get-VCP-feature payload. -/
theorem framer_round_trip_witness :
    ([(0x01 : Nat), 0x60].length ≤ 36) ∧
    decode 0x37 (echo_reply (encode_command 0x37 [0x01, 0x60])) = .ok [0x01, 0x60] :=
  ⟨by decide, framer_round_trip 0x37 [0x01, 0x60] (by decide)⟩

/-- C2.  Encoding the payload `[0x01, 0x60]` with chip address 0x37 yields
exactly the 5-byte packet `[0x51, 0x82, 0x01, 0x60, cks]` whose checksum
byte is the XOR of `0x6E, 0x51, 0x82, 0x01, 0x60`, namely 0xDC. -/
theorem encode_get_vcp_feature_packet :
    encode_command 0x37 [0x01, 0x60] = [0x51, 0x82, 0x01, 0x60, 0xDC] ∧
    checksum [0x6E, 0x51, 0x82, 0x01, 0x60] = 0xDC ∧
    (encode_command 0x37 [0x01, 0x60]).length = 5 := by
  refine ⟨?_, ?_, ?_⟩ <;> decide

/-- C3.  Reply decoding fails with `InvalidLength` exactly when
`declared_length + 2 ≥ buffer length` (with `declared_length = R[1] & 0x7F`);
in the boundary case `declared_length + 2 = buffer length - 1` it does not
fail with `InvalidLength` but proceeds to checksum validation, producing
either `InvalidChecksum` or a decoded payload. -/
theorem reply_invalid_length_iff (chip_address : Nat) (R : List Nat) :
    (decode chip_address R = .error (.Ddc .InvalidLength) ↔
      (R.getD 1 0 &&& 0x7f) + 2 ≥ R.length) ∧
    ((R.getD 1 0 &&& 0x7f) + 2 = R.length - 1 →
      decode chip_address R = .error (.Ddc .InvalidChecksum) ∨
        ∃ p, decode chip_address R = .ok p) := by
  constructor
  · simp only [decode]
    split_ifs with h1 h2
    · exact iff_of_true rfl h1
    · exact iff_of_false (by decide) h1
    · exact iff_of_false (by simp) h1
  · intro hbound
    have hlt : ¬((R.getD 1 0 &&& 0x7f) + 2 ≥ R.length) := by omega
    simp only [decode]
    rw [if_neg hlt]
    by_cases h2 : R.getD (2 + (R.getD 1 0 &&& 0x7f)) 0 ≠
        checksum (((chip_address <<< 1) ||| 1) % 256 ::
          SUB_ADDRESS_DDC_CI :: (R.drop 1).take (1 + (R.getD 1 0 &&& 0x7f)))
    · left
      rw [if_pos h2]
    · right
      exact ⟨_, by rw [if_neg h2]⟩

/-- Witness for C3: the boundary-case implication at a concrete 4-byte
buffer with declared length 1 (so `1 + 2 = 4 - 1`), which validates. -/
theorem reply_invalid_length_iff_witness :
    decode 0x37 [0x00, 0x81, 0xAA, 0x15] = .error (.Ddc .InvalidChecksum) ∨
      ∃ p, decode 0x37 [0x00, 0x81, 0xAA, 0x15] = .ok p :=
  (reply_invalid_length_iff 0x37 [0x00, 0x81, 0xAA, 0x15]).2 (by decide)

/-- Counterexample for C4 as stated: byte 0 of the reply buffer is a
transport artifact the decoder never reads, so mutating it (here from 0x00
to 0x63) leaves a valid packet decoding successfully instead of failing
with `InvalidChecksum`; and mutating the length byte (0x81 to 0x82, growing
the declared length) fails with `InvalidLength`, not `InvalidChecksum`. -/
theorem decode_ignores_leading_byte :
    decode 0x37 [0x00, 0x81, 0xAA, 0x15] = .ok [0xAA] ∧
    decode 0x37 [0x63, 0x81, 0xAA, 0x15] = .ok [0xAA] ∧
    decode 0x37 [0x63, 0x81, 0xAA, 0x15] ≠ .error (.Ddc .InvalidChecksum) ∧
    decode 0x37 [0x00, 0x82, 0xAA, 0x15] = .error (.Ddc .InvalidLength) := by
  refine ⟨?_, ?_, ?_, ?_⟩ <;> decide

/-- C4 (amended).  For every reply buffer that decodes successfully,
mutating any single byte strictly between the ignored transport byte 0 and
the checksum byte — that is, at an index `i` with `1 ≤ i < 2 + len` — in a
way that leaves the 7-bit declared-length field unchanged when the mutated
byte is the length byte, makes decode fail with `InvalidChecksum`. -/
theorem decode_mutation_invalid_checksum (chip_address : Nat) (R p : List Nat) (i b : Nat)
    (hok : decode chip_address R = .ok p)
    (hi1 : 1 ≤ i) (hi2 : i < 2 + (R.getD 1 0 &&& 0x7f))
    (hb : b ≠ R.getD i 0)
    (hlenKeep : i = 1 → b &&& 0x7f = R.getD 1 0 &&& 0x7f) :
    decode chip_address (R.set i b) = .error (.Ddc .InvalidChecksum) := by
  simp only [decode] at hok ⊢
  by_cases hL : (R.getD 1 0 &&& 0x7f) + 2 ≥ R.length
  · rw [if_pos hL] at hok
    exact absurd hok (by simp)
  rw [if_neg hL] at hok
  by_cases hC : R.getD (2 + (R.getD 1 0 &&& 0x7f)) 0 ≠
      checksum (((chip_address <<< 1) ||| 1) % 256 ::
        SUB_ADDRESS_DDC_CI :: (R.drop 1).take (1 + (R.getD 1 0 &&& 0x7f)))
  · rw [if_pos hC] at hok
    exact absurd hok (by simp)
  push_neg at hC
  have hRlen : R.length > (R.getD 1 0 &&& 0x7f) + 2 := by omega
  have hlenMut : (R.set i b).getD 1 0 &&& 0x7f = R.getD 1 0 &&& 0x7f := by
    by_cases hi : i = 1
    · subst hi
      rw [List.getD_eq_getElem?_getD, List.getElem?_set_self (by omega)]
      exact hlenKeep rfl
    · rw [List.getD_eq_getElem?_getD, List.getElem?_set_ne (by omega),
        ← List.getD_eq_getElem?_getD]
  rw [hlenMut, List.length_set, if_neg hL]
  have hdropset : (R.set i b).drop 1 = ((R.drop 1).set (i - 1) b) := by
    rw [List.drop_set, if_neg (by omega)]
  have htakeset : ((R.set i b).drop 1).take (1 + (R.getD 1 0 &&& 0x7f)) =
      ((R.drop 1).take (1 + (R.getD 1 0 &&& 0x7f))).set (i - 1) b := by
    rw [hdropset, take_set_of_lt _ _ _ _ (by omega)]
  rw [htakeset]
  have hslen : ((R.drop 1).take (1 + (R.getD 1 0 &&& 0x7f))).length =
      1 + (R.getD 1 0 &&& 0x7f) := by
    rw [List.length_take, List.length_drop]
    omega
  have hsgetD : ((R.drop 1).take (1 + (R.getD 1 0 &&& 0x7f))).getD (i - 1) 0 =
      R.getD i 0 := by
    rw [List.getD_eq_getElem?_getD, List.getElem?_take, if_pos (by omega),
      List.getElem?_drop, show 1 + (i - 1) = i from by omega,
      ← List.getD_eq_getElem?_getD]
  have hstored : (R.set i b).getD (2 + (R.getD 1 0 &&& 0x7f)) 0 =
      R.getD (2 + (R.getD 1 0 &&& 0x7f)) 0 := by
    rw [List.getD_eq_getElem?_getD, List.getElem?_set_ne (by omega),
      ← List.getD_eq_getElem?_getD]
  rw [hstored, hC]
  have hsetlt : i - 1 < (List.take (1 + (R.getD 1 0 &&& 0x7f)) (List.drop 1 R)).length := by
    rw [hslen]; omega
  have hcksNew : checksum ((chip_address <<< 1 ||| 1) % 256 ::
      SUB_ADDRESS_DDC_CI ::
        (List.take (1 + (R.getD 1 0 &&& 0x7f)) (List.drop 1 R)).set (i - 1) b) =
      (chip_address <<< 1 ||| 1) % 256 ^^^ (SUB_ADDRESS_DDC_CI ^^^
        (checksum (List.take (1 + (R.getD 1 0 &&& 0x7f)) (List.drop 1 R)) ^^^
          R.getD i 0 ^^^ b)) := by
    rw [checksum_cons, checksum_cons, checksum_set _ _ _ hsetlt, hsgetD]
  have hcksOld : checksum ((chip_address <<< 1 ||| 1) % 256 ::
      SUB_ADDRESS_DDC_CI :: List.take (1 + (R.getD 1 0 &&& 0x7f)) (List.drop 1 R)) =
      (chip_address <<< 1 ||| 1) % 256 ^^^ (SUB_ADDRESS_DDC_CI ^^^
        checksum (List.take (1 + (R.getD 1 0 &&& 0x7f)) (List.drop 1 R))) := by
    rw [checksum_cons, checksum_cons]
  rw [hcksNew, hcksOld, if_pos]
  intro hEq
  have h1 := xor_left_cancel _ _ _ hEq
  have h2 := xor_left_cancel _ _ _ h1
  rw [Nat.xor_assoc] at h2
  have h3 : (0 : Nat) = R.getD i 0 ^^^ b :=
    xor_left_cancel (checksum (List.take (1 + (R.getD 1 0 &&& 0x7f)) (List.drop 1 R))) _ _
      (by rw [Nat.xor_zero]; exact h2)
  have h4 : R.getD i 0 = b := by
    have h5 := h3.symm
    rwa [Nat.xor_eq_zero] at h5
  exact hb h4.symm

/-- Witness for C4 (amended): mutating the payload byte of a concrete valid
packet (index 2, 0xAA to 0xAB) fails with `InvalidChecksum`. -/
theorem decode_mutation_witness :
    decode 0x37 ([0x00, 0x81, 0xAA, 0x15].set 2 0xAB) = .error (.Ddc .InvalidChecksum) :=
  decode_mutation_invalid_checksum 0x37 [0x00, 0x81, 0xAA, 0x15] [0xAA] 2 0xAB
    (by decide) (by decide) (by decide) (by decide)
    (by intro h; exact absurd h (by decide))

/-- C5.  Transport A identity matching returns `none` immediately for
builtin displays; otherwise it returns the first candidate framebuffer port
(in iteration order) satisfying the specification's predicate — nonzero I2C
bus count, and `DisplayVendorID`, `DisplayProductID`, `DisplaySerialNumber`
(treated as 0 when absent) equal to the display's vendor, model and serial
numbers — and `none` when no candidate matches (`List.find?` returns the
first satisfying element and `none` when there is none). -/
theorem get_io_framebuffer_port_follows_spec (display : Display)
    (candidates : List FramebufferPort) :
    get_io_framebuffer_port display candidates =
      if display.isBuiltin then none
      else candidates.find? (spec_port_matches display) := by
  unfold get_io_framebuffer_port
  by_cases hb : display.isBuiltin
  · simp [hb]
  · simp only [hb, if_false, Bool.false_eq_true]
    congr 1
    funext fb
    exact matches_eq_spec fb display

/-- C6.  Transport A request sending: zero reported buses fails with the
generic `Io(KERN_FAILURE)` error and no acquisition attempts; the first bus
whose transaction succeeds, with no earlier success, ends the loop after
attempting exactly the buses `0..k` in ascending order and its result is
returned; when every bus fails, the last error encountered is surfaced
after attempting every bus in ascending order. -/
theorem send_request_bus_policy (buses : Nat → BusOutcome) (n : Nat) :
    (send_request 0 0 buses = (.error (.Io KERN_FAILURE), [])) ∧
    (∀ k, k < n → buses k = .txnOk → (∀ j, j < k → buses j ≠ .txnOk) →
      send_request 0 n buses = (.ok (), List.range (k + 1))) ∧
    ((∀ j, j < n → buses j ≠ .txnOk) →
      send_request 0 n buses = (last_bus_error buses n, List.range n)) := by
  refine ⟨?_, ?_, ?_⟩
  · rw [send_request_zero_status]
    simp [send_request_loop]
  · intro k hk hsucc hprev
    have hsplit : List.range n = List.range k ++ k ::
        List.map (fun x => (k + 1) + x) (List.range (n - (k + 1))) := by
      have hn : n = (k + 1) + (n - (k + 1)) := by omega
      rw [hn, List.range_add, List.range_succ]
      simp
    rw [send_request_zero_status, hsplit]
    rw [send_request_loop_first_success buses _ k _ _
      (fun j hj => hprev j (List.mem_range.mp hj)) hsucc]
    rw [← List.range_succ]
  · intro hfail
    rw [send_request_zero_status]
    rw [send_request_loop_all_fail buses _ _
      (fun j hj => hfail j (List.mem_range.mp hj))]
    rfl

/-- Witness for C6: the specification's scenario — bus count 3, buses 0 and
1 fail to acquire, bus 2 succeeds — attempts exactly the three acquisitions
0, 1, 2 in order and returns the bus-2 result. -/
theorem send_request_bus_policy_witness :
    send_request 0 3 scenario_buses = (.ok (), [0, 1, 2]) := by
  have h := (send_request_bus_policy scenario_buses 3).2.1 2 (by decide) (by decide)
    (by decide)
  simpa using h

/-- Counterexample for C7 as stated: with one external display, no matching
framebuffer port, and a Transport B environment that would match it, the
source's enumeration still omits the display — it never attempts Transport
B matching — so it differs from the specification's enumeration. -/
theorem enumerate_ignores_arm_counterexample :
    enumerate (.ok [⟨1, 2, 3, false⟩]) [] ≠
      enumerate_spec (.ok [⟨1, 2, 3, false⟩]) [] (fun _ => some (7, 0x37)) := by
  decide

/-- C7 (amended).  `enumerate()` lists active displays and, for each,
attempts only Transport A (framebuffer-port) matching, constructing a
monitor on success; Transport B matching is never attempted (the source
behaves as the specification's pipeline would if Transport B matching
always failed); displays matching no backend are silently omitted, and
enumeration fails only with the host-subsystem (CoreGraphics) error when
the display list itself cannot be obtained. -/
theorem enumerate_intel_only (activeDisplays : Except Int (List Display))
    (candidates : List FramebufferPort) :
    enumerate activeDisplays candidates =
      enumerate_spec activeDisplays candidates (fun _ => none) := by
  cases activeDisplays with
  | error e => rfl
  | ok displays =>
    simp only [enumerate, enumerate_spec]
    congr 1
    apply List.filterMap_congr
    intro d _
    cases get_io_framebuffer_port d candidates <;> simp

/-- C8.  Transport B chip-address derivation: the returned address is 0xB7
exactly when the parent lookup succeeds and the parent carries the
`AppleDCPMCDP29XX` class property; in every other case (parent lookup
failure, missing class property, other class value) it is the standard
0x37 — and the result is always one of the two. -/
theorem i2c_address_spec (parentClass : Option (Option String)) :
    (i2c_address parentClass = 0xB7 ↔ parentClass = some (some "AppleDCPMCDP29XX")) ∧
    (i2c_address parentClass = 0xB7 ∨ i2c_address parentClass = 0x37) := by
  rcases parentClass with _ | (_ | c)
  · simp [i2c_address, I2C_ADDRESS_DDC_CI]
  · simp [i2c_address, I2C_ADDRESS_DDC_CI]
  · by_cases hc : c = "AppleDCPMCDP29XX" <;>
      simp [i2c_address, hc, I2C_ADDRESS_DDC_CI, I2C_ADDRESS_DDC_CI_MDCP29XX]

/-- C9.  Failing input for the claim: a successful transaction with a
non-empty out buffer and a negotiated checksum-reply transaction type makes
the integrated-backend `execute` return an empty result instead of the out
buffer holding the bytes the transport read (the source's final condition
is inverted: it returns the out buffer only when no reply was requested). -/
theorem intel_execute_discards_reply :
    intel_execute (.ok ()) (some kIOI2CDDCciReplyTransactionType)
        [0x88, 0x02, 0x00, 0x60, 0x00, 0x10] = .ok [] ∧
    intel_execute (.ok ()) (some kIOI2CDDCciReplyTransactionType)
        [0x88, 0x02, 0x00, 0x60, 0x00, 0x10] ≠
      .ok [0x88, 0x02, 0x00, 0x60, 0x00, 0x10] := by
  refine ⟨?_, ?_⟩ <;> decide

/-- C10.  `serial_number` returns `None` exactly when the display's numeric
serial number is 0, and otherwise returns the number formatted in decimal
(`Nat.repr`). -/
theorem serial_number_zero_iff (display : Display) :
    (serial_number display = none ↔ display.serialNumber = 0) ∧
    (serial_number display = some (Nat.repr display.serialNumber) ∨
      serial_number display = none) := by
  rcases hd : display.serialNumber with _ | n
  · simp [serial_number, hd]
  · simp [serial_number, hd]
    rfl

end DdcMacos
